import Mathlib

/-!
Shallow embedding of `src/rok4_tools/tms2stuff.py` (coordinate conversion
tool using Tile Matrix Sets).

Modelling conventions:
* Python floats are modelled as exact rationals (`ℚ`); the decimal literals
  accepted by the tool denote exact decimal fractions.
* The external Tile Matrix Catalog (`rok4.TileMatrixSet`) supplies the two
  coordinate transforms `bbox_to_tiles` and `tile_to_bbox`; they are passed
  as explicit function parameters.
* The external geometry engine (`osgeo.ogr`): the only operation the core
  applies to a container geometry is `container.Intersects(rectangle-of-bbox)`,
  so a container is modelled as an opaque predicate `Bbox → Bool` applied to
  the bbox out of which the code builds the 5-point rectangle.  The four
  `ogr.CreateGeometryFrom*` probes are modelled as opaque
  `String → Option G` parameters.
* Python exceptions are modelled by the `PyExc` error type and `Except`.
-/

/-- Greedy run of characters satisfying `p`: returns the longest prefix all
satisfying `p` together with the remaining suffix (the behaviour of a greedy
regex character class such as `[0-9]+` or `[A-Z_]+`). -/
def takeP (p : Char → Bool) : List Char → List Char × List Char
  | [] => ([], [])
  | c :: cs =>
    if p c then
      (c :: (takeP p cs).1, (takeP p cs).2)
    else
      ([], c :: cs)

/-- Value of a digit run, as in Python `int("...")`. -/
def digitsToNat (ds : List Char) : Nat :=
  ds.foldl (fun n c => 10 * n + (c.toNat - '0'.toNat)) 0

/-- Python `range(a, b)` over integers, as a list. -/
def intRange (a b : Int) : List Int :=
  (List.range (b - a).toNat).map (fun i => a + i)

/-- The Python idiom `for x in xs: if x not in acc: acc.append(x)`. -/
def dedupAppend {α : Type} [DecidableEq α] (acc : List α) (xs : List α) : List α :=
  xs.foldl (fun a x => if x ∈ a then a else a ++ [x]) acc

/-- Python `str.splitlines()` restricted to the newline separator: cut at
every newline character, without a trailing empty line for a terminal
newline. -/
def splitlinesAux : List Char → List Char → List String
  | [], acc => if acc.isEmpty then [] else [String.mk acc.reverse]
  | c :: cs, acc =>
    if c = '\n' then String.mk acc.reverse :: splitlinesAux cs []
    else splitlinesAux cs (c :: acc)

/-- Python `str.splitlines()` (newline separator only). -/
def splitlines (s : String) : List String :=
  splitlinesAux s.data []

/-- Python exceptions raised (directly or by builtins) in `tms2stuff.py`. -/
inductive PyExc where
  | valueError (msg : String)
  | zeroDivisionError
  | indexError
  | runtimeError (msg : String)
  | geometryError (msg : String)
  | fileNotFoundError (msg : String)
deriving DecidableEq

/-- A bounding box `(min_x, min_y, max_x, max_y)`, the tuple layout used
throughout `tms2stuff.py`. -/
structure Bbox where
  minX : ℚ
  minY : ℚ
  maxX : ℚ
  maxY : ℚ
deriving DecidableEq

/-- A tile range `(min_col, min_row, max_col, max_row)` as returned by the
external transform `tm.bbox_to_tiles`; also reused for slab ranges. -/
structure TileRange where
  minCol : Int
  minRow : Int
  maxCol : Int
  maxRow : Int
deriving DecidableEq

/-! ### read_bbox (lines 67-102): the regex
`^(-?[0-9]+(?:[.][0-9]+)?),(repeat),(repeat),(repeat)$` and float conversion.
The greedy matcher below is equivalent to the anchored regex: digits can
never be re-distributed by backtracking because the characters that follow a
digit run in the pattern (`,`, `.`, end of string) are not digits. -/

/-- The optional fraction group `(?:[.][0-9]+)?` after a digit run `ds`:
taken only when the remaining input starts with a dot followed by at least
one digit (regex backtracking discards the group otherwise). -/
def matchNumFrac (ds : List Char) : List Char → Option (List Char × List Char)
  | [] => some (ds, [])
  | c :: rest2 =>
    if c = '.' then
      if (takeP Char.isDigit rest2).1.isEmpty then some (ds, c :: rest2)
      else some (ds ++ '.' :: (takeP Char.isDigit rest2).1, (takeP Char.isDigit rest2).2)
    else some (ds, c :: rest2)

/-- One number group without the optional sign: `[0-9]+(?:[.][0-9]+)?`.
Returns the matched token and the remaining input. -/
def matchNumCore (cs : List Char) : Option (List Char × List Char) :=
  if (takeP Char.isDigit cs).1.isEmpty then none
  else matchNumFrac (takeP Char.isDigit cs).1 (takeP Char.isDigit cs).2

/-- One number group `-?[0-9]+(?:[.][0-9]+)?`. -/
def matchNum : List Char → Option (List Char × List Char)
  | [] => matchNumCore []
  | c :: cs2 =>
    if c = '-' then (matchNumCore cs2).map (fun tr => ('-' :: tr.1, tr.2))
    else matchNumCore (c :: cs2)

/-- Consume a literal comma. -/
def expectComma : List Char → Option (List Char)
  | [] => none
  | c :: r => if c = ',' then some r else none

/-- The full anchored bbox pattern: four comma-separated number groups and
end of input.  Returns the four captured groups. -/
def matchBbox (s : String) : Option (List Char × List Char × List Char × List Char) := do
  let t1 ← matchNum s.data
  let r1 ← expectComma t1.2
  let t2 ← matchNum r1
  let r2 ← expectComma t2.2
  let t3 ← matchNum r2
  let r3 ← expectComma t3.2
  let t4 ← matchNum r3
  if t4.2.isEmpty then some (t1.1, t2.1, t3.1, t4.1) else none

/-- Integer part value plus the fraction value, if a fraction follows. -/
def parseNumFrac (n : Nat) : List Char → ℚ
  | [] => (n : ℚ)
  | c :: fs =>
    if c = '.' then (n : ℚ) + (digitsToNat fs : ℚ) / (10 : ℚ) ^ fs.length
    else (n : ℚ)

/-- Python `float()` on an unsigned captured group (digits, optionally a dot
and digits), as an exact rational. -/
def parseNumAbs (cs : List Char) : ℚ :=
  parseNumFrac (digitsToNat (takeP Char.isDigit cs).1) (takeP Char.isDigit cs).2

/-- Python `float()` on a captured number group. -/
def parseNum : List Char → ℚ
  | [] => parseNumAbs []
  | c :: cs2 => if c = '-' then -(parseNumAbs cs2) else parseNumAbs (c :: cs2)

/-- Embedding of `read_bbox` (lines 67-102): match the anchored bbox pattern
and convert the four groups with `float()`; raise `ValueError` otherwise. -/
def read_bbox (bbox_str : String) (error_message : Option String) : Except PyExc Bbox :=
  let msg := error_message.getD
    ( "Invalid BBOX: " ++ bbox_str ++ "\nExpected BBOX format is <min_axis_1>,<min_axis_2>,<max_axis_1>,<max_axis_2>")
  match matchBbox bbox_str with
  | none => .error (.valueError msg)
  | some (t1, t2, t3, t4) => .ok ⟨parseNum t1, parseNum t2, parseNum t3, parseNum t4⟩

/-! ### bbox_to_gettile (lines 106-140) -/

/-- Embedding of `bbox_to_gettile`: enumerate the tile range returned by the
external transform, column as the outer loop, row as the inner loop; with a
container, keep a tile iff the container intersects the rectangle built from
the tile bbox. -/
def bbox_to_gettile (tmId : String) (bboxToTiles : Bbox → TileRange)
    (tileToBbox : Int → Int → Bbox) (bbox : Bbox)
    (container : Option (Bbox → Bool)) : List String :=
  let tile_range := bboxToTiles bbox
  (intRange tile_range.minCol (tile_range.maxCol + 1)).flatMap (fun column =>
    (intRange tile_range.minRow (tile_range.maxRow + 1)).filterMap (fun row =>
      let add_query :=
        match container with
        | none => true
        | some inter => inter (tileToBbox column row)
      if add_query then
        some ( "TILEMATRIX=" ++ tmId ++ "&TILECOL=" ++ toString column ++ "&TILEROW=" ++ toString row)
      else none))

/-! ### bbox_to_slab_list (lines 142-203) -/

/-- The `slab_bbox` update of lines 184-191, transcribed exactly: note the
comparisons move the running mins up and the running maxes down. -/
def slabBboxCombine (sb tb : Bbox) : Bbox :=
  ⟨if sb.minX < tb.minX then tb.minX else sb.minX,
   if sb.minY < tb.minY then tb.minY else sb.minY,
   if sb.maxX > tb.maxX then tb.maxX else sb.maxX,
   if sb.maxY > tb.maxY then tb.maxY else sb.maxY⟩

/-- The `slab_bbox` accumulation loop of lines 177-191, transcribed exactly:
the loop ranges over the slab's tile indices but each iteration calls
`tm.tile_to_bbox(column, row)` on the slab loop indices (the tile loop
variables are unused in the body, as in the source). `none` models the empty
`slab_bbox` list. -/
def slabFootprint (tileToBbox : Int → Int → Bbox) (column row : Int)
    (slab_size : Int × Int) : Option Bbox :=
  let tile_pairs :=
    (intRange (column * slab_size.1) ((column + 1) * slab_size.1)).flatMap (fun tile_col =>
      (intRange (row * slab_size.2) ((row + 1) * slab_size.2)).map (fun tile_row =>
        (tile_col, tile_row)))
  tile_pairs.foldl (fun acc _pair =>
    let tile_bbox := tileToBbox column row
    match acc with
    | none => some tile_bbox
    | some sb => some (slabBboxCombine sb tile_bbox)) none

/-- Lines 171-200: decide whether one candidate slab is kept.  Without a
container every slab is kept; with one, the slab footprint rectangle is
tested against the container.  An empty footprint would hit `slab_bbox[0]`
on an empty list (Python `IndexError`). -/
def slab_add_check (tileToBbox : Int → Int → Bbox) (container : Option (Bbox → Bool))
    (slab_size : Int × Int) (column row : Int) : Except PyExc Bool :=
  match container with
  | none => .ok true
  | some inter =>
    match slabFootprint tileToBbox column row slab_size with
    | some sb => .ok (inter sb)
    | none => .error .indexError

/-- Keep the elements of a list whose (fallible) test returns `true`,
propagating the first error, in order. -/
def filterExcept {α ε : Type} (f : α → Except ε Bool) : List α → Except ε (List α)
  | [] => .ok []
  | x :: xs =>
    match f x with
    | .error e => .error e
    | .ok b =>
      match filterExcept f xs with
      | .error e => .error e
      | .ok rest => .ok (if b then x :: rest else rest)

/-- Embedding of `bbox_to_slab_list`: floor-divide the four tile range
bounds by the slab dimensions (`math.floor(a / b)` raises
`ZeroDivisionError` for a zero dimension), then enumerate the slab range,
column as the outer loop, row as the inner loop, filtering by
`slab_add_check` when a container is present. -/
def bbox_to_slab_list (bboxToTiles : Bbox → TileRange) (tileToBbox : Int → Int → Bbox)
    (bbox : Bbox) (slab_size : Int × Int)
    (container : Option (Bbox → Bool)) : Except PyExc (List (Int × Int)) :=
  if slab_size.1 = 0 ∨ slab_size.2 = 0 then .error .zeroDivisionError
  else
    let tile_range := bboxToTiles bbox
    let slab_range : TileRange :=
      ⟨tile_range.minCol.fdiv slab_size.1, tile_range.minRow.fdiv slab_size.2,
       tile_range.maxCol.fdiv slab_size.1, tile_range.maxRow.fdiv slab_size.2⟩
    let pairs :=
      (intRange slab_range.minCol (slab_range.maxCol + 1)).flatMap (fun column =>
        (intRange slab_range.minRow (slab_range.maxRow + 1)).map (fun row => (column, row)))
    filterExcept (fun cr => slab_add_check tileToBbox container slab_size cr.1 cr.2) pairs

/-- Modelled from the spec (section 4.3, the intended contract the code was
meant to implement): the union bounding box of the bboxes of all tiles
belonging to the slab, each tile individually transformed and combined by
the extremal min/max per axis. -/
def spec_slab_union_footprint (tileToBbox : Int → Int → Bbox) (column row : Int)
    (slab_size : Int × Int) : Option Bbox :=
  let tile_pairs :=
    (intRange (column * slab_size.1) ((column + 1) * slab_size.1)).flatMap (fun tile_col =>
      (intRange (row * slab_size.2) ((row + 1) * slab_size.2)).map (fun tile_row =>
        (tile_col, tile_row)))
  tile_pairs.foldl (fun acc pair =>
    let tile_bbox := tileToBbox pair.1 pair.2
    match acc with
    | none => some tile_bbox
    | some sb =>
      some ⟨min sb.minX tile_bbox.minX, min sb.minY tile_bbox.minY,
            max sb.maxX tile_bbox.maxX, max sb.maxY tile_bbox.maxY⟩) none

/-! ### main (lines 222-410): argument handling, dispatch and aggregation -/

/-- The regex `^([0-9]+)x([0-9]+)$` of the `--slabsize` check (lines
251-263); `some` carries the two integer groups. -/
def parse_slabsize (s : String) : Option (Int × Int) :=
  let d1 := (takeP Char.isDigit s.data).1
  let r1 := (takeP Char.isDigit s.data).2
  if d1.isEmpty then none
  else
    match r1 with
    | [] => none
    | c :: r2 =>
      if c = 'x' then
        let d2 := (takeP Char.isDigit r2).1
        let r3 := (takeP Char.isDigit r2).2
        if d2.isEmpty then none
        else if r3.isEmpty then some ((digitsToNat d1 : Int), (digitsToNat d2 : Int))
        else none
      else none

/-- A character accepted by the kind group of the format regex
`^([A-Z_]+)(?::(.*))?$` (line 267). -/
def formatChar (c : Char) : Bool :=
  ( 'A' ≤ c && c ≤ 'Z') || c = '_'

/-- The format regex `^([A-Z_]+)(?::(.*))?$`: the kind and the optional
payload after the first colon. -/
def parse_format (s : String) : Option (String × Option String) :=
  let p := (takeP formatChar s.data).1
  let r := (takeP formatChar s.data).2
  if p.isEmpty then none
  else
    match r with
    | [] => some (String.mk p, none)
    | c :: r2 => if c = ':' then some (String.mk p, some (String.mk r2)) else none

/-- The `implemented` table of lines 234-249. -/
def implemented_outputs (ikind : String) : Option (List String) :=
  if ikind = "BBOX" then some ["GETTILE_PARAMS", "SLAB_INDICES"]
  else if ikind = "BBOXES_LIST" then some ["SLAB_INDICES"]
  else if ikind = "GEOM_FILE" then some ["GETTILE_PARAMS", "SLAB_INDICES"]
  else if ikind = "TILE_INDICE" then some ["GETMAP_PARAMS"]
  else none

/-- The membership test of lines 281-282. -/
def conversion_supported (ikind okind : String) : Bool :=
  match implemented_outputs ikind with
  | some outs => outs.contains okind
  | none => false

/-- The argument dictionary produced by `parse_cli_args`; `none` stands for
an absent or empty optional value. -/
structure Args where
  tms_name : String
  input : String
  output : String
  level : Option String
  slabsize : Option String

/-- Observable steps of the prefix of `main` (lines 251-284), in program
order: the `--slabsize` check, the Tile Matrix Catalog constructor
`TileMatrixSet(...)`, the parsing of the positional formats, the
`get_level` lookup, and the implemented-conversion check. -/
inductive Event where
  | valueErrorRaised
  | catalogResolve
  | levelLookup
  | unsupportedError
  | dispatch
deriving DecidableEq

/-- Trace of the prefix of `main` (lines 251-284), assuming the external
catalog constructor and level lookup succeed: first the slab size check
(raising `ValueError` on a malformed value), then `TileMatrixSet(...)`,
then the two format regexes (failure of either raises `ValueError`), then
`get_level` when a level was given, then the implemented-conversion check,
which raises `RuntimeError` for an unsupported pair and otherwise reaches
the dispatch on the input kind. -/
def main_prefix_trace (args : Args) : List Event :=
  let proceed :=
    Event.catalogResolve ::
      (match parse_format args.input, parse_format args.output with
       | some ip, some op =>
         (if args.level.isSome then [Event.levelLookup] else []) ++
           (if conversion_supported ip.1 op.1 then [Event.dispatch]
            else [Event.unsupportedError])
       | _, _ => [Event.valueErrorRaised])
  match args.slabsize with
  | some s => if (parse_slabsize s).isSome then proceed else [Event.valueErrorRaised]
  | none => proceed

/-- The geometry format detection cascade of lines 341-359: try GML, then
GeoJSON, then WKB, then WKT, short-circuiting on the first probe that
succeeds, and raise `GeometryError` naming the resource when all fail.  The
four probes are the external `ogr.CreateGeometryFrom*` constructors
(`none` models a raised `RuntimeError`/`TypeError`). -/
def detect_geometry {G : Type} (fromGML fromJson fromWkb fromWkt : String → Option G)
    (file_path : String) (geometry_str : String) : Except PyExc G :=
  match fromGML geometry_str with
  | some g => .ok g
  | none =>
    match fromJson geometry_str with
    | some g => .ok g
    | none =>
      match fromWkb geometry_str with
      | some g => .ok g
      | none =>
        match fromWkt geometry_str with
        | some g => .ok g
        | none =>
          .error (.geometryError
            ( "Input geometry error in file \x27" ++ file_path ++
              "\x27: unhandled format or invalid data. Handled formats are: GML, GeoJSON, WKB, WKT."))

/-- Python tuple `<=` on `(col, row)` pairs, the ascending order produced by
`slabs_list.sort()` (line 329). -/
abbrev slabLe (a b : Int × Int) : Prop :=
  a.1 < b.1 ∨ (a.1 = b.1 ∧ a.2 ≤ b.2)

/-- Python string `<` (lexicographic by code point) on the underlying
character lists. -/
def charListLt : List Char → List Char → Bool
  | [], [] => false
  | [], _ :: _ => true
  | _ :: _, [] => false
  | a :: as, b :: bs =>
    if a < b then true
    else if b < a then false
    else charListLt as bs

/-- Python string `<=` (lexicographic by code point), the ascending order
produced by `final_list.sort()` (line 388). -/
abbrev pyStrLe (a b : String) : Prop :=
  charListLt b.data a.data = false

/-- The slab output formatting `f"{slab[0]},{slab[1]}"` (line 385). -/
def slabString (slab : Int × Int) : String :=
  toString slab.1 ++ "," ++ toString slab.2

/-- Accumulation loop of the `BBOXES_LIST` branch (lines 323-328): for each
line, parse the bbox, compute its slab list (no container) and append the
slabs not already present. -/
def accumulate_slabs (bboxToTiles : Bbox → TileRange) (tileToBbox : Int → Int → Bbox)
    (slab_size : Int × Int) :
    List String → List (Int × Int) → Except PyExc (List (Int × Int))
  | [], acc => .ok acc
  | line :: rest, acc =>
    match read_bbox line none with
    | .error e => .error e
    | .ok bbox =>
      match bbox_to_slab_list bboxToTiles tileToBbox bbox slab_size none with
      | .error e => .error e
      | .ok temp => accumulate_slabs bboxToTiles tileToBbox slab_size rest (dedupAppend acc temp)

/-- The `BBOXES_LIST` to `SLAB_INDICES` branch (lines 320-331), from the
fetched list content to the final sorted slab tuples. -/
def bboxes_list_to_slabs (bboxToTiles : Bbox → TileRange) (tileToBbox : Int → Int → Bbox)
    (slab_size : Int × Int) (list_data : String) : Except PyExc (List (Int × Int)) :=
  match accumulate_slabs bboxToTiles tileToBbox slab_size (splitlines list_data) [] with
  | .error e => .error e
  | .ok slabs_list => .ok (List.insertionSort slabLe slabs_list)

/-- Accumulation loop of the `GEOM_FILE` to `SLAB_INDICES` branch (lines
381-387): one slab list per geometry part envelope, tested against the full
geometry, deduplicated as formatted strings. -/
def accumulate_slab_strings (bboxToTiles : Bbox → TileRange) (tileToBbox : Int → Int → Bbox)
    (slab_size : Int × Int) (inter : Bbox → Bool) :
    List Bbox → List String → Except PyExc (List String)
  | [], acc => .ok acc
  | bbox :: rest, acc =>
    match bbox_to_slab_list bboxToTiles tileToBbox bbox slab_size (some inter) with
    | .error e => .error e
    | .ok slab_list =>
      accumulate_slab_strings bboxToTiles tileToBbox slab_size inter rest
        (dedupAppend acc (slab_list.map slabString))

/-- The `GEOM_FILE` to `SLAB_INDICES` branch (lines 363-389): from the part
envelopes and the full-geometry intersection predicate to the final sorted
list of `<col>,<row>` strings. -/
def geom_to_slab_strings (bboxToTiles : Bbox → TileRange) (tileToBbox : Int → Int → Bbox)
    (slab_size : Int × Int) (bbox_list : List Bbox) (inter : Bbox → Bool) :
    Except PyExc (List String) :=
  match accumulate_slab_strings bboxToTiles tileToBbox slab_size inter bbox_list [] with
  | .error e => .error e
  | .ok final_list => .ok (List.insertionSort pyStrLe final_list)

/-- The `GEOM_FILE` to `GETTILE_PARAMS` branch (lines 363-375 and 388):
one GetTile list per part envelope, tested against the full geometry,
deduplicated and finally sorted as strings. -/
def geom_to_gettile_list (tmId : String) (bboxToTiles : Bbox → TileRange)
    (tileToBbox : Int → Int → Bbox) (bbox_list : List Bbox) (inter : Bbox → Bool) :
    List String :=
  List.insertionSort pyStrLe
    (bbox_list.foldl
      (fun acc bbox =>
        dedupAppend acc (bbox_to_gettile tmId bboxToTiles tileToBbox bbox (some inter)))
      [])

/-- The `TILE_INDICE` to `GETMAP_PARAMS` query construction (lines 403-410).
The external transform returns a bbox of Python floats which are then
interpolated into the string; the interpolated decimal renderings are taken
as opaque strings here. -/
def getmap_query (tile_size : Int × Int) (bbox_strs : String × String × String × String)
    (srs : String) : String :=
  "WIDTH=" ++ toString tile_size.1 ++ "&HEIGHT=" ++ toString tile_size.2 ++
    "&BBOX=" ++ bbox_strs.1 ++ "," ++ bbox_strs.2.1 ++ "," ++ bbox_strs.2.2.1 ++ "," ++
    bbox_strs.2.2.2 ++ "&CRS=" ++ srs

/-- The exception-to-exit-code mapping of the script entry point (lines
414-426): `ValueError` exits with code 2, every other exception with
code 1, a normal run with 0. -/
def script_exit_code (run_result : Except PyExc Unit) : Int :=
  match run_result with
  | .ok _ => 0
  | .error (.valueError _) => 2
  | .error _ => 1

/-! ### Declarative predicates and claim-side helpers -/

/-- A non-empty run of decimal digits. -/
def DigitsNE (ds : List Char) : Prop :=
  ds ≠ [] ∧ ∀ c ∈ ds, c.isDigit

/-- Declarative reading of the number pattern `-?[0-9]+(?:[.][0-9]+)?`:
an optional leading minus, a non-empty digit run, and an optional fraction
of a dot followed by a non-empty digit run. -/
def NumToken (cs : List Char) : Prop :=
  ∃ sign ds fr, cs = sign ++ (ds ++ fr) ∧ (sign = [] ∨ sign = ['-']) ∧
    DigitsNE ds ∧ (fr = [] ∨ ∃ fs, fr = '.' :: fs ∧ DigitsNE fs)

/-- Declarative reading of the anchored bbox pattern: exactly four
comma-separated number tokens spanning the whole string. -/
def BboxString (s : String) : Prop :=
  ∃ a b c d, s.data = a ++ (',' :: (b ++ (',' :: (c ++ (',' :: d))))) ∧
    NumToken a ∧ NumToken b ∧ NumToken c ∧ NumToken d

/-- Claim-side conversion of an emitted `<col>,<row>` line back to the
numeric pair it renders. -/
def slabStringToTuple (s : String) : Int × Int :=
  let d1 := (takeP Char.isDigit s.data).1
  match (takeP Char.isDigit s.data).2 with
  | [] => ((digitsToNat d1 : Int), 0)
  | _ :: r2 => ((digitsToNat d1 : Int), (digitsToNat (takeP Char.isDigit r2).1 : Int))

/-- A concrete external tile-to-bbox transform used as a test fixture: tile
`(c, r)` covers the unit square with lower-left corner `(c, r)`. -/
def unitTileToBbox : Int → Int → Bbox := fun c r =>
  if c = 0 ∧ r = 0 then ⟨0, 0, 1, 1⟩
  else if c = 0 ∧ r = 1 then ⟨0, 1, 1, 2⟩
  else if c = 1 ∧ r = 0 then ⟨1, 0, 2, 1⟩
  else ⟨1, 1, 2, 2⟩

/-! ### Helper lemmas: the sort orders -/

theorem charListLt_asymm : ∀ a b : List Char, charListLt a b = true → charListLt b a = true → False := by
  intro a
  induction a with
  | nil =>
    intro b h1 h2
    cases b with
    | nil => simp [charListLt] at h1
    | cons c cs => simp [charListLt] at h2
  | cons x xs ih =>
    intro b h1 h2
    cases b with
    | nil => simp [charListLt] at h1
    | cons y ys =>
      simp only [charListLt] at h1 h2
      by_cases hxy : x < y
      · have hyx : ¬ y < x := lt_asymm hxy
        simp [hxy, hyx] at h2
      · by_cases hyx : y < x
        · simp [hxy, hyx] at h1
        · simp [hxy, hyx] at h1 h2
          exact ih ys h1 h2

theorem charListLt_trans : ∀ a b c : List Char, charListLt a b = true → charListLt b c = true → charListLt a c = true := by
  intro a
  induction a with
  | nil =>
    intro b c h1 h2
    cases b with
    | nil => simp [charListLt] at h1
    | cons y ys =>
      cases c with
      | nil => simp [charListLt] at h2
      | cons z zs => simp [charListLt]
  | cons x xs ih =>
    intro b c h1 h2
    cases b with
    | nil => simp [charListLt] at h1
    | cons y ys =>
      cases c with
      | nil => simp [charListLt] at h2
      | cons z zs =>
        simp only [charListLt] at h1 h2 ⊢
        by_cases hxy : x < y
        · by_cases hyz : y < z
          · simp [lt_trans hxy hyz]
          · by_cases hzy : z < y
            · simp [hyz, hzy] at h2
            · have : y = z := le_antisymm (le_of_not_lt hzy) (le_of_not_lt hyz)
              subst this
              simp [hxy]
        · by_cases hyx : y < x
          · simp [hxy, hyx] at h1
          · have hxy2 : x = y := le_antisymm (le_of_not_lt hyx) (le_of_not_lt hxy)
            subst hxy2
            rw [if_neg hxy, if_neg hxy] at h1
            by_cases hxz : x < z
            · rw [if_pos hxz]
            · rw [if_neg hxz] at h2 ⊢
              by_cases hzx : z < x
              · rw [if_pos hzx] at h2
                exact absurd h2 (by simp)
              · rw [if_neg hzx] at h2 ⊢
                exact ih ys zs h1 h2

theorem charListLt_connex : ∀ a b : List Char, charListLt a b = false → charListLt b a = false → a = b := by
  intro a
  induction a with
  | nil =>
    intro b h1 _
    cases b with
    | nil => rfl
    | cons y ys => simp [charListLt] at h1
  | cons x xs ih =>
    intro b h1 h2
    cases b with
    | nil => simp [charListLt] at h2
    | cons y ys =>
      simp only [charListLt] at h1 h2
      by_cases hxy : x < y
      · simp [hxy] at h1
      · by_cases hyx : y < x
        · simp [hxy, hyx] at h2
        · have heq : x = y := le_antisymm (le_of_not_lt hyx) (le_of_not_lt hxy)
          subst heq
          simp [hxy] at h1 h2
          rw [ih ys h1 h2]

instance : IsTotal String pyStrLe := by
  constructor
  intro a b
  by_cases h : charListLt b.data a.data = false
  · exact Or.inl h
  · refine Or.inr ?_
    by_cases h2 : charListLt a.data b.data = false
    · exact h2
    · exact absurd (charListLt_asymm _ _ (Bool.not_eq_false _ ▸ h) (Bool.not_eq_false _ ▸ h2)) id

instance : IsTrans String pyStrLe := by
  constructor
  intro a b c hab hbc
  by_contra hca
  have hca2 : charListLt c.data a.data = true := Bool.not_eq_false _ ▸ hca
  by_cases hab2 : charListLt a.data b.data = true
  · exact absurd (charListLt_trans _ _ _ hca2 hab2) (by simpa [pyStrLe] using hbc)
  · have : a.data = b.data := charListLt_connex _ _ (Bool.not_eq_true _ ▸ hab2) hab
    rw [this] at hca2
    exact absurd hca2 (by simpa [pyStrLe] using hbc)

instance : IsTotal (Int × Int) slabLe := by
  constructor
  intro a b
  simp only [slabLe]
  omega

instance : IsTrans (Int × Int) slabLe := by
  constructor
  intro a b c hab hbc
  simp only [slabLe] at hab hbc ⊢
  omega

/-! ### Helper lemmas: the greedy matcher -/

theorem takeP_fst_append_snd (p : Char → Bool) : ∀ cs : List Char, (takeP p cs).1 ++ (takeP p cs).2 = cs := by
  intro cs
  induction cs with
  | nil => rfl
  | cons c cs ih =>
    simp only [takeP]
    by_cases h : p c
    · simp only [if_pos h, List.cons_append, ih]
    · simp only [if_neg h, List.nil_append]

theorem takeP_fst_all (p : Char → Bool) : ∀ cs : List Char, ∀ c ∈ (takeP p cs).1, p c = true := by
  intro cs
  induction cs with
  | nil => intro c hc; simp [takeP] at hc
  | cons x xs ih =>
    intro c hc
    simp only [takeP] at hc
    by_cases h : p x
    · rw [if_pos h] at hc
      rcases List.mem_cons.mp hc with h1 | h1
      · rw [h1]; exact h
      · exact ih c h1
    · rw [if_neg h] at hc
      simp at hc

theorem takeP_of_all (p : Char → Bool) : ∀ (ds r : List Char), (∀ c ∈ ds, p c = true) →
    (∀ c cs2, r = c :: cs2 → p c = false) → takeP p (ds ++ r) = (ds, r) := by
  intro ds
  induction ds with
  | nil =>
    intro r _ hr
    cases r with
    | nil => rfl
    | cons c cs2 =>
      simp only [List.nil_append, takeP]
      rw [if_neg (by rw [hr c cs2 rfl]; exact Bool.false_ne_true)]
  | cons d ds ih =>
    intro r hds hr
    have hih := ih r (fun c hc => hds c (List.mem_cons_of_mem d hc)) hr
    simp only [takeP, List.cons_append, List.append_eq, hih, if_pos (hds d (List.mem_cons_self d ds))]

theorem matchNumCore_sound : ∀ (cs t r : List Char), matchNumCore cs = some (t, r) →
    (∃ ds fr, t = ds ++ fr ∧ DigitsNE ds ∧ (fr = [] ∨ ∃ fs, fr = '.' :: fs ∧ DigitsNE fs)) ∧
      cs = t ++ r := by
  intro cs t r h
  rcases hds : takeP Char.isDigit cs with ⟨ds, rest1⟩
  have hsplit : ds ++ rest1 = cs := by
    have h2 := takeP_fst_append_snd Char.isDigit cs
    rw [hds] at h2
    exact h2
  have hall : ∀ c ∈ ds, Char.isDigit c = true := by
    intro c hc
    have h2 := takeP_fst_all Char.isDigit cs
    rw [hds] at h2
    exact h2 c hc
  rw [matchNumCore, hds] at h
  cases ds with
  | nil => simp at h
  | cons d0 ds0 =>
    rw [if_neg (by simp)] at h
    have hdne : DigitsNE (d0 :: ds0) := ⟨List.cons_ne_nil d0 ds0, hall⟩
    cases rest1 with
    | nil =>
      rw [matchNumFrac, Option.some_inj] at h
      have ht : d0 :: ds0 = t := congrArg Prod.fst h
      have hr : ([] : List Char) = r := congrArg Prod.snd h
      subst ht
      subst hr
      exact ⟨⟨d0 :: ds0, [], (List.append_nil _).symm, hdne, Or.inl rfl⟩,
        by rw [← hsplit]⟩
    | cons c rest2 =>
      rw [matchNumFrac] at h
      by_cases hc : c = '.'
      · subst hc
        rw [if_pos rfl] at h
        rcases hfs : takeP Char.isDigit rest2 with ⟨fs, rest3⟩
        have hsplit2 : fs ++ rest3 = rest2 := by
          have h2 := takeP_fst_append_snd Char.isDigit rest2
          rw [hfs] at h2
          exact h2
        have hall2 : ∀ c2 ∈ fs, Char.isDigit c2 = true := by
          intro c2 hc2
          have h2 := takeP_fst_all Char.isDigit rest2
          rw [hfs] at h2
          exact h2 c2 hc2
        rw [hfs] at h
        cases fs with
        | nil =>
          rw [if_pos (by simp), Option.some_inj] at h
          have ht : d0 :: ds0 = t := congrArg Prod.fst h
          have hr : '.' :: rest2 = r := congrArg Prod.snd h
          subst ht
          subst hr
          exact ⟨⟨d0 :: ds0, [], (List.append_nil _).symm, hdne, Or.inl rfl⟩,
            by rw [← hsplit]⟩
        | cons f0 fs0 =>
          rw [if_neg (by simp), Option.some_inj] at h
          have ht : d0 :: ds0 ++ '.' :: (f0 :: fs0) = t := congrArg Prod.fst h
          have hr : rest3 = r := congrArg Prod.snd h
          subst ht
          subst hr
          refine ⟨⟨d0 :: ds0, '.' :: (f0 :: fs0), rfl, hdne,
            Or.inr ⟨f0 :: fs0, rfl, List.cons_ne_nil f0 fs0, hall2⟩⟩, ?_⟩
          rw [← hsplit, ← hsplit2]
          simp
      · rw [if_neg hc, Option.some_inj] at h
        have ht : d0 :: ds0 = t := congrArg Prod.fst h
        have hr : c :: rest2 = r := congrArg Prod.snd h
        subst ht
        subst hr
        exact ⟨⟨d0 :: ds0, [], (List.append_nil _).symm, hdne, Or.inl rfl⟩,
          by rw [← hsplit]⟩

theorem matchNum_sound : ∀ (cs t r : List Char), matchNum cs = some (t, r) →
    NumToken t ∧ cs = t ++ r := by
  intro cs t r h
  cases cs with
  | nil => simp [matchNum, matchNumCore, takeP] at h
  | cons c cs2 =>
    rw [matchNum] at h
    by_cases hc : c = '-'
    · subst hc
      rw [if_pos rfl] at h
      obtain ⟨⟨t0, r0⟩, hcore, hmap⟩ := Option.map_eq_some'.mp h
      have ht : '-' :: t0 = t := congrArg Prod.fst hmap
      have hr : r0 = r := congrArg Prod.snd hmap
      subst ht
      subst hr
      obtain ⟨⟨ds, fr, hteq, hdne, hfr⟩, hcs⟩ := matchNumCore_sound cs2 t0 r0 hcore
      refine ⟨⟨['-'], ds, fr, by rw [hteq]; rfl, Or.inr rfl, hdne, hfr⟩, ?_⟩
      rw [hcs]
      rfl
    · rw [if_neg hc] at h
      obtain ⟨⟨ds, fr, hteq, hdne, hfr⟩, hcs⟩ := matchNumCore_sound (c :: cs2) t r h
      exact ⟨⟨[], ds, fr, by rw [hteq]; rfl, Or.inl rfl, hdne, hfr⟩, hcs⟩

theorem isDigit_ne_minus : ∀ c : Char, c.isDigit = true → c = '-' → False := by
  intro c hd hc
  subst hc
  simp [Char.isDigit] at hd

theorem matchNumCore_complete : ∀ (ds fr r : List Char), DigitsNE ds →
    (fr = [] ∨ ∃ fs, fr = '.' :: fs ∧ DigitsNE fs) →
    (r = [] ∨ ∃ r2, r = ',' :: r2) →
    matchNumCore ((ds ++ fr) ++ r) = some (ds ++ fr, r) := by
  intro ds fr r hds hfr hr
  have hnotd : ∀ c cs2, fr ++ r = c :: cs2 → Char.isDigit c = false := by
    intro c cs2 hcons
    rcases hfr with hfr | ⟨fs, hfr, _⟩
    · subst hfr
      rcases hr with hr | ⟨r2, hr⟩
      · subst hr; simp at hcons
      · subst hr
        simp only [List.nil_append, List.cons.injEq] at hcons
        rw [← hcons.1]
        decide
    · subst hfr
      simp only [List.cons_append, List.cons.injEq] at hcons
      rw [← hcons.1]
      decide
  have hdse : ds.isEmpty = false := by
    cases ds with
    | nil => exact absurd rfl hds.1
    | cons x xs => rfl
  rw [List.append_assoc, matchNumCore]
  rw [takeP_of_all Char.isDigit ds (fr ++ r) hds.2 hnotd]
  simp only [hdse, Bool.false_eq_true, if_false]
  rcases hfr with hfr | ⟨fs, hfr, hfs⟩
  · subst hfr
    simp only [List.nil_append, List.append_nil]
    rcases hr with hr | ⟨r2, hr⟩
    · subst hr; rfl
    · subst hr
      rw [matchNumFrac, if_neg (by decide)]
  · subst hfr
    have hfse : fs.isEmpty = false := by
      cases fs with
      | nil => exact absurd rfl hfs.1
      | cons x xs => rfl
    have hnotd2 : ∀ c cs2, r = c :: cs2 → Char.isDigit c = false := by
      intro c cs2 hcons
      rcases hr with hr | ⟨r2, hr⟩
      · subst hr; simp at hcons
      · subst hr
        simp only [List.cons.injEq] at hcons
        rw [← hcons.1]
        decide
    simp only [List.cons_append, List.append_assoc]
    rw [matchNumFrac, if_pos rfl]
    rw [takeP_of_all Char.isDigit fs r hfs.2 hnotd2]
    simp only [hfse, Bool.false_eq_true, if_false, List.append_assoc]

theorem matchNum_complete : ∀ (t r : List Char), NumToken t →
    (r = [] ∨ ∃ r2, r = ',' :: r2) → matchNum (t ++ r) = some (t, r) := by
  intro t r ht hr
  obtain ⟨sign, ds, fr, hteq, hsign, hds, hfr⟩ := ht
  rcases hsign with hsign | hsign
  · subst hsign
    rw [List.nil_append] at hteq
    subst hteq
    cases ds with
    | nil => exact absurd rfl hds.1
    | cons d0 ds0 =>
      have hcore := matchNumCore_complete (d0 :: ds0) fr r hds hfr hr
      have hd0 : d0.isDigit = true := hds.2 d0 (List.mem_cons_self d0 ds0)
      simp only [List.cons_append] at hcore ⊢
      rw [matchNum, if_neg (fun hc => isDigit_ne_minus d0 hd0 hc)]
      exact hcore
  · subst hsign
    subst hteq
    have hcore := matchNumCore_complete ds fr r hds hfr hr
    simp only [List.cons_append, List.nil_append]
    rw [matchNum, if_pos rfl, hcore]
    rfl

theorem expectComma_sound : ∀ (r r2 : List Char), expectComma r = some r2 → r = ',' :: r2 := by
  intro r r2 h
  cases r with
  | nil => simp [expectComma] at h
  | cons c cs =>
    rw [expectComma] at h
    by_cases hc : c = ','
    · subst hc
      rw [if_pos rfl, Option.some_inj] at h
      rw [h]
    · rw [if_neg hc] at h
      exact absurd h (by simp)

theorem matchBbox_sound : ∀ (s : String) (a b c d : List Char),
    matchBbox s = some (a, b, c, d) → BboxString s := by
  intro s a b c d h
  rw [matchBbox] at h
  obtain ⟨⟨t1, r1p⟩, h1, h⟩ := Option.bind_eq_some.mp h
  obtain ⟨r1, hc1, h⟩ := Option.bind_eq_some.mp h
  obtain ⟨⟨t2, r2p⟩, h2, h⟩ := Option.bind_eq_some.mp h
  obtain ⟨r2, hc2, h⟩ := Option.bind_eq_some.mp h
  obtain ⟨⟨t3, r3p⟩, h3, h⟩ := Option.bind_eq_some.mp h
  obtain ⟨r3, hc3, h⟩ := Option.bind_eq_some.mp h
  obtain ⟨⟨t4, r4p⟩, h4, h⟩ := Option.bind_eq_some.mp h
  by_cases hemp : r4p.isEmpty
  · rw [if_pos hemp, Option.some_inj] at h
    simp only [Prod.mk.injEq] at h
    obtain ⟨rfl, rfl, rfl, rfl⟩ := h
    have hr4 : r4p = [] := List.isEmpty_iff.mp hemp
    obtain ⟨hnt1, hs1⟩ := matchNum_sound s.data t1 r1p h1
    have hcs1 : r1p = ',' :: r1 := expectComma_sound r1p r1 hc1
    obtain ⟨hnt2, hs2⟩ := matchNum_sound r1 t2 r2p h2
    have hcs2 : r2p = ',' :: r2 := expectComma_sound r2p r2 hc2
    obtain ⟨hnt3, hs3⟩ := matchNum_sound r2 t3 r3p h3
    have hcs3 : r3p = ',' :: r3 := expectComma_sound r3p r3 hc3
    obtain ⟨hnt4, hs4⟩ := matchNum_sound r3 t4 r4p h4
    refine ⟨t1, t2, t3, t4, ?_, hnt1, hnt2, hnt3, hnt4⟩
    rw [hs1, hcs1, hs2, hcs2, hs3, hcs3, hs4, hr4, List.append_nil]
  · rw [if_neg hemp] at h
    exact absurd h (by simp)

theorem matchBbox_complete : ∀ (s : String) (a b c d : List Char),
    s.data = a ++ (',' :: (b ++ (',' :: (c ++ (',' :: d))))) →
    NumToken a → NumToken b → NumToken c → NumToken d →
    matchBbox s = some (a, b, c, d) := by
  intro s a b c d hdecomp hna hnb hnc hnd
  rw [matchBbox, hdecomp]
  simp only [Option.bind_eq_bind]
  rw [matchNum_complete a (',' :: (b ++ (',' :: (c ++ (',' :: d))))) hna
    (Or.inr ⟨b ++ (',' :: (c ++ (',' :: d))), rfl⟩)]
  simp only [Option.some_bind]
  rw [show expectComma (a, ',' :: (b ++ (',' :: (c ++ (',' :: d))))).2 =
    some (b ++ (',' :: (c ++ (',' :: d)))) from by rw [expectComma, if_pos rfl]]
  simp only [Option.some_bind]
  rw [matchNum_complete b (',' :: (c ++ (',' :: d))) hnb (Or.inr ⟨c ++ (',' :: d), rfl⟩)]
  simp only [Option.some_bind]
  rw [show expectComma (b, ',' :: (c ++ (',' :: d))).2 = some (c ++ (',' :: d)) from by
    rw [expectComma, if_pos rfl]]
  simp only [Option.some_bind]
  rw [matchNum_complete c (',' :: d) hnc (Or.inr ⟨d, rfl⟩)]
  simp only [Option.some_bind]
  rw [show expectComma (c, ',' :: d).2 = some d from by rw [expectComma, if_pos rfl]]
  simp only [Option.some_bind]
  rw [show matchNum d = matchNum (d ++ []) from by rw [List.append_nil]]
  rw [matchNum_complete d [] hnd (Or.inl rfl)]
  simp only [Option.some_bind]
  rfl

/-! ### Helper lemmas: enumeration and aggregation -/

theorem filterExcept_all_true {α ε : Type} (f : α → Except ε Bool) :
    ∀ l : List α, (∀ x ∈ l, f x = .ok true) → filterExcept f l = .ok l := by
  intro l
  induction l with
  | nil => intro _; rfl
  | cons x xs ih =>
    intro h
    rw [filterExcept, h x (List.mem_cons_self x xs), ih (fun y hy => h y (List.mem_cons_of_mem x hy))]
    rfl

theorem dedupAppend_step_nodup {α : Type} [DecidableEq α] (acc : List α) (x : α)
    (h : acc.Nodup) : (if x ∈ acc then acc else acc ++ [x]).Nodup := by
  by_cases hx : x ∈ acc
  · rw [if_pos hx]; exact h
  · rw [if_neg hx, ← List.concat_eq_append]
    exact List.Nodup.concat hx h

theorem dedupAppend_nodup {α : Type} [DecidableEq α] :
    ∀ (xs acc : List α), acc.Nodup → (dedupAppend acc xs).Nodup := by
  intro xs
  induction xs with
  | nil => intro acc h; exact h
  | cons x xs ih =>
    intro acc h
    rw [dedupAppend, List.foldl_cons]
    exact ih _ (dedupAppend_step_nodup acc x h)

theorem accumulate_slabs_nodup (bt : Bbox → TileRange) (tb : Int → Int → Bbox)
    (ss : Int × Int) :
    ∀ (ls : List String) (acc : List (Int × Int)) (out : List (Int × Int)),
      acc.Nodup → accumulate_slabs bt tb ss ls acc = .ok out → out.Nodup := by
  intro ls
  induction ls with
  | nil =>
    intro acc out hacc h
    rw [accumulate_slabs] at h
    cases h
    exact hacc
  | cons line rest ih =>
    intro acc out hacc h
    rw [accumulate_slabs] at h
    split at h
    · exact absurd h (by simp)
    · split at h
      · exact absurd h (by simp)
      · exact ih _ out (dedupAppend_nodup _ acc hacc) h

theorem accumulate_slab_strings_nodup (bt : Bbox → TileRange) (tb : Int → Int → Bbox)
    (ss : Int × Int) (inter : Bbox → Bool) :
    ∀ (bl : List Bbox) (acc : List String) (out : List String),
      acc.Nodup → accumulate_slab_strings bt tb ss inter bl acc = .ok out → out.Nodup := by
  intro bl
  induction bl with
  | nil =>
    intro acc out hacc h
    rw [accumulate_slab_strings] at h
    cases h
    exact hacc
  | cons bbox rest ih =>
    intro acc out hacc h
    rw [accumulate_slab_strings] at h
    split at h
    · exact absurd h (by simp)
    · exact ih _ out (dedupAppend_nodup _ acc hacc) h

theorem gettile_fold_nodup (tmId : String) (bt : Bbox → TileRange) (tb : Int → Int → Bbox)
    (inter : Bbox → Bool) :
    ∀ (bl : List Bbox) (acc : List String), acc.Nodup →
      (bl.foldl (fun a bbox => dedupAppend a (bbox_to_gettile tmId bt tb bbox (some inter))) acc).Nodup := by
  intro bl
  induction bl with
  | nil => intro acc h; exact h
  | cons bbox rest ih =>
    intro acc h
    rw [List.foldl_cons]
    exact ih _ (dedupAppend_nodup _ acc h)

theorem bbox_to_slab_list_none (bt : Bbox → TileRange) (tb : Int → Int → Bbox) (bbox : Bbox)
    (w h : Int) (hw : w ≠ 0) (hh : h ≠ 0) :
    bbox_to_slab_list bt tb bbox (w, h) none =
      .ok ((intRange ((bt bbox).minCol.fdiv w) ((bt bbox).maxCol.fdiv w + 1)).flatMap
        (fun column =>
          (intRange ((bt bbox).minRow.fdiv h) ((bt bbox).maxRow.fdiv h + 1)).map
            (fun row => (column, row)))) := by
  rw [bbox_to_slab_list, if_neg (by push_neg; exact ⟨hw, hh⟩)]
  exact filterExcept_all_true _ _ (fun x _ => rfl)

theorem bboxes_list_to_slabs_ok (bt : Bbox → TileRange) (tb : Int → Int → Bbox)
    (ss : Int × Int) (data : String) (l : List (Int × Int))
    (h : bboxes_list_to_slabs bt tb ss data = .ok l) :
    ∃ m, accumulate_slabs bt tb ss (splitlines data) [] = .ok m ∧
      l = List.insertionSort slabLe m := by
  rw [bboxes_list_to_slabs] at h
  split at h
  · exact absurd h (by simp)
  · next slabs_list heq => exact ⟨slabs_list, heq, (Except.ok.inj h).symm⟩

theorem geom_to_slab_strings_ok (bt : Bbox → TileRange) (tb : Int → Int → Bbox)
    (ss : Int × Int) (bl : List Bbox) (inter : Bbox → Bool) (l : List String)
    (h : geom_to_slab_strings bt tb ss bl inter = .ok l) :
    ∃ m, accumulate_slab_strings bt tb ss inter bl [] = .ok m ∧
      l = List.insertionSort pyStrLe m := by
  rw [geom_to_slab_strings] at h
  split at h
  · exact absurd h (by simp)
  · next final_list heq => exact ⟨final_list, heq, (Except.ok.inj h).symm⟩

theorem filterMap_some_eq_map {α β : Type} (f : α → β) :
    ∀ l : List α, (l.filterMap fun x => some (f x)) = l.map f := by
  intro l
  induction l with
  | nil => rfl
  | cons x xs ih => simp [ih]

/-! ### Claim theorems -/

/-- C1: the claim states that with a container, the footprint tested for a
candidate slab is the union bounding box of the bboxes of all tiles of the
slab (extremal min/max per axis), and the slab is included iff that union
intersects the container.  The code instead evaluates
`tm.tile_to_bbox(column, row)` on the slab loop indices (the tile loop
variables are dead) and combines with inverted comparisons, so the tested
footprint degenerates to a single bbox.  This theorem evaluates the code at
a failing input: a 2x2-tile slab `(0, 0)` on the unit tile grid, with a
container predicate true exactly on rectangles reaching `max_x >= 2`.  The
union bbox of the four tiles is `(0, 0, 2, 2)`, which the container
intersects, so the claim includes the slab; the code tests the degenerate
bbox `(0, 0, 1, 1)` and emits an empty slab list. -/
theorem C1_degenerate_slab_footprint_eval :
    bbox_to_slab_list (fun _ => ⟨0, 0, 1, 1⟩) unitTileToBbox ⟨0, 0, 0, 0⟩ (2, 2)
        (some (fun b => decide ((2 : ℚ) ≤ b.maxX))) = .ok [] ∧
    slabFootprint unitTileToBbox 0 0 (2, 2) = some ⟨0, 0, 1, 1⟩ ∧
    spec_slab_union_footprint unitTileToBbox 0 0 (2, 2) = some ⟨0, 0, 2, 2⟩ ∧
    (fun b => decide ((2 : ℚ) ≤ b.maxX)) (⟨0, 0, 2, 2⟩ : Bbox) = true :=
  ⟨rfl, by decide, by decide, by decide⟩

/-- C2 counterexample: the claim states `bbox_to_gettile` iterates row as
the outer axis and column as the inner axis, emitting, for tile range
`(17000, 15000, 17002, 15002)` without a geometry filter, the nine
coordinates in row-major order.  The code iterates column as the outer
axis, so the emitted list differs from the claimed one. -/
theorem C2_row_major_counterexample :
    bbox_to_gettile "15" (fun _ => ⟨17000, 15000, 17002, 15002⟩) (fun _ _ => ⟨0, 0, 0, 0⟩)
        ⟨0, 0, 0, 0⟩ none ≠
      ["TILEMATRIX=15&TILECOL=17000&TILEROW=15000",
       "TILEMATRIX=15&TILECOL=17001&TILEROW=15000",
       "TILEMATRIX=15&TILECOL=17002&TILEROW=15000",
       "TILEMATRIX=15&TILECOL=17000&TILEROW=15001",
       "TILEMATRIX=15&TILECOL=17001&TILEROW=15001",
       "TILEMATRIX=15&TILECOL=17002&TILEROW=15001",
       "TILEMATRIX=15&TILECOL=17000&TILEROW=15002",
       "TILEMATRIX=15&TILECOL=17001&TILEROW=15002",
       "TILEMATRIX=15&TILECOL=17002&TILEROW=15002"] := by decide

/-- C2 (amended): for every tile range returned by the external transform,
`bbox_to_gettile` without a geometry filter iterates column from `minCol`
to `maxCol` inclusive as the outer axis and row from `minRow` to `maxRow`
inclusive as the inner axis; in particular, for tile range
`(17000, 15000, 17002, 15002)` it emits exactly nine coordinates in
column-major order `(17000,15000), (17000,15001), (17000,15002),
(17001,15000), ..., (17002,15002)`, whatever the tile-to-bbox transform
and input bbox. -/
theorem C2_column_outer_enumeration :
    (∀ (tmId : String) (bt : Bbox → TileRange) (tb : Int → Int → Bbox) (bbox : Bbox),
      bbox_to_gettile tmId bt tb bbox none =
        (intRange (bt bbox).minCol ((bt bbox).maxCol + 1)).flatMap (fun column =>
          (intRange (bt bbox).minRow ((bt bbox).maxRow + 1)).map (fun row =>
            "TILEMATRIX=" ++ tmId ++ "&TILECOL=" ++ toString column ++ "&TILEROW=" ++
              toString row))) ∧
    (∀ (tb : Int → Int → Bbox) (bbox : Bbox),
      bbox_to_gettile "15" (fun _ => ⟨17000, 15000, 17002, 15002⟩) tb bbox none =
        ["TILEMATRIX=15&TILECOL=17000&TILEROW=15000",
         "TILEMATRIX=15&TILECOL=17000&TILEROW=15001",
         "TILEMATRIX=15&TILECOL=17000&TILEROW=15002",
         "TILEMATRIX=15&TILECOL=17001&TILEROW=15000",
         "TILEMATRIX=15&TILECOL=17001&TILEROW=15001",
         "TILEMATRIX=15&TILECOL=17001&TILEROW=15002",
         "TILEMATRIX=15&TILECOL=17002&TILEROW=15000",
         "TILEMATRIX=15&TILECOL=17002&TILEROW=15001",
         "TILEMATRIX=15&TILECOL=17002&TILEROW=15002"]) := by
  constructor
  · intro tmId bt tb bbox
    show (intRange (bt bbox).minCol ((bt bbox).maxCol + 1)).flatMap (fun column =>
        (intRange (bt bbox).minRow ((bt bbox).maxRow + 1)).filterMap (fun row =>
          some ( "TILEMATRIX=" ++ tmId ++ "&TILECOL=" ++ toString column ++ "&TILEROW=" ++
            toString row))) = _
    simp only [filterMap_some_eq_map]
  · intro _ _
    rfl

/-- C3: the tile-range-to-slab-range mapping floor-divides each of the four
bounds independently by the corresponding slab dimension, inclusive on both
ends; in particular for slab size `(16, 10)` and tile range
`(799, 319, 800, 321)` the unfiltered enumeration yields exactly the four
slabs `(49,31), (49,32), (50,31), (50,32)` in that (sorted) order. -/
theorem C3_slab_range_floor_division :
    (∀ (bt : Bbox → TileRange) (tb : Int → Int → Bbox) (bbox : Bbox) (w h : Int),
      w ≠ 0 → h ≠ 0 →
      bbox_to_slab_list bt tb bbox (w, h) none =
        .ok ((intRange ((bt bbox).minCol.fdiv w) ((bt bbox).maxCol.fdiv w + 1)).flatMap
          (fun column =>
            (intRange ((bt bbox).minRow.fdiv h) ((bt bbox).maxRow.fdiv h + 1)).map
              (fun row => (column, row))))) ∧
    (∀ (tb : Int → Int → Bbox) (bbox : Bbox),
      bbox_to_slab_list (fun _ => ⟨799, 319, 800, 321⟩) tb bbox (16, 10) none =
        .ok [(49, 31), (49, 32), (50, 31), (50, 32)]) := by
  refine ⟨bbox_to_slab_list_none, fun tb bbox => ?_⟩
  rw [bbox_to_slab_list_none (fun _ => ⟨799, 319, 800, 321⟩) tb bbox 16 10 (by decide) (by decide)]
  rfl

/-- C3 witness: the floor-division enumeration applied at the concrete
slab size `(16, 10)` and tile range `(799, 319, 800, 321)`. -/
theorem C3_slab_range_floor_division_witness :
    ((16 : Int) ≠ 0) ∧ ((10 : Int) ≠ 0) ∧
    bbox_to_slab_list (fun _ => ⟨799, 319, 800, 321⟩) (fun _ _ => ⟨0, 0, 0, 0⟩)
      ⟨0, 0, 0, 0⟩ (16, 10) none = .ok [(49, 31), (49, 32), (50, 31), (50, 32)] :=
  ⟨by decide, by decide, by
    rw [C3_slab_range_floor_division.1 (fun _ => ⟨799, 319, 800, 321⟩)
      (fun _ _ => ⟨0, 0, 0, 0⟩) ⟨0, 0, 0, 0⟩ 16 10 (by decide) (by decide)]
    rfl⟩

/-- C4 counterexample: the claim states the geometry format detection
probes WKT first.  With probes where the WKT constructor succeeds with one
geometry and the GML constructor succeeds with a different one, the result
is the GML one, not the WKT one. -/
theorem C4_wkt_first_counterexample :
    (fun _ : String => some 1) "geom" = some 1 ∧
    detect_geometry (fun _ => some 2) (fun _ => none) (fun _ => none) (fun _ => some 1)
      "path" "geom" = .ok 2 ∧
    (Except.ok 2 : Except PyExc Nat) ≠ .ok 1 :=
  ⟨rfl, rfl, fun h => absurd (Except.ok.inj h) (by decide)⟩

/-- C4 (amended): the detection chain probes GML first, then GeoJSON, then
WKB, then WKT, in that sequence, short-circuiting on the first probe that
succeeds, and raises the geometry error naming the offending resource only
when every format in the chain fails. -/
theorem C4_gml_first_detection :
    ∀ {G : Type} (gml json wkb wkt : String → Option G) (path s : String),
      (∀ g, gml s = some g → detect_geometry gml json wkb wkt path s = .ok g) ∧
      (gml s = none → ∀ g, json s = some g → detect_geometry gml json wkb wkt path s = .ok g) ∧
      (gml s = none → json s = none → ∀ g, wkb s = some g →
        detect_geometry gml json wkb wkt path s = .ok g) ∧
      (gml s = none → json s = none → wkb s = none → ∀ g, wkt s = some g →
        detect_geometry gml json wkb wkt path s = .ok g) ∧
      (gml s = none → json s = none → wkb s = none → wkt s = none →
        detect_geometry gml json wkb wkt path s =
          .error (.geometryError ( "Input geometry error in file \x27" ++ path ++
            "\x27: unhandled format or invalid data. Handled formats are: GML, GeoJSON, WKB, WKT."))) := by
  intro G gml json wkb wkt path s
  refine ⟨?_, ?_, ?_, ?_, ?_⟩
  · intro g hg
    simp [detect_geometry, hg]
  · intro h1 g hg
    simp [detect_geometry, h1, hg]
  · intro h1 h2 g hg
    simp [detect_geometry, h1, h2, hg]
  · intro h1 h2 h3 g hg
    simp [detect_geometry, h1, h2, h3, hg]
  · intro h1 h2 h3 h4
    simp [detect_geometry, h1, h2, h3, h4]

/-- C4 witness: the chain applied with only the WKT probe succeeding, and
with every probe failing. -/
theorem C4_gml_first_detection_witness :
    detect_geometry (fun _ => none) (fun _ => none) (fun _ => none) (fun _ => some 7)
      "p" "s" = .ok 7 ∧
    detect_geometry (fun _ => (none : Option Nat)) (fun _ => none) (fun _ => none)
      (fun _ => none) "p" "s" =
      .error (.geometryError ( "Input geometry error in file \x27p\x27: unhandled format or invalid data. Handled formats are: GML, GeoJSON, WKB, WKT.")) :=
  ⟨(C4_gml_first_detection (fun _ => none) (fun _ => none) (fun _ => none) (fun _ => some 7)
      "p" "s").2.2.2.1 rfl rfl rfl 7 rfl,
   (C4_gml_first_detection (fun _ => (none : Option Nat)) (fun _ => none) (fun _ => none)
      (fun _ => none) "p" "s").2.2.2.2 rfl rfl rfl rfl⟩

/-- C5 counterexample: the claim states that for every multi-part geometry
input, the final slab output converted to `(col, row)` tuples is
non-decreasing under numeric tuple ordering.  With one envelope covering
slab columns 9 to 10 and rows 2 to 5 (slab size `(1, 1)`, container always
intersecting), the geometry branch sorts the formatted strings
lexicographically, so `"10,2"` precedes `"9,2"` and the tuple sequence
decreases at the `(10,5) -> (9,2)` step. -/
theorem C5_tuple_order_counterexample :
    geom_to_slab_strings (fun _ => ⟨9, 2, 10, 5⟩)
        (fun c r => ⟨(c : ℚ), (r : ℚ), (c : ℚ), (r : ℚ)⟩)
        (1, 1) [⟨0, 0, 0, 0⟩] (fun _ => true) =
      .ok ["10,2", "10,3", "10,4", "10,5", "9,2", "9,3", "9,4", "9,5"] ∧
    (["10,2", "10,3", "10,4", "10,5", "9,2", "9,3", "9,4", "9,5"].map slabStringToTuple) =
      [(10, 2), (10, 3), (10, 4), (10, 5), (9, 2), (9, 3), (9, 4), (9, 5)] ∧
    ¬ ([((10 : Int), (2 : Int)), (10, 3), (10, 4), (10, 5),
        (9, 2), (9, 3), (9, 4), (9, 5)].Pairwise slabLe) :=
  ⟨rfl, by decide, by decide⟩

/-- C5 (amended): the Aggregator sorts before emission in every mode, but
with different keys: the bbox-list slab output is non-decreasing under
numeric `(col, row)` tuple ordering, while the geometry-mode outputs (slab
`<col>,<row>` strings and GetTile query strings) are non-decreasing under
lexicographic string ordering, which does not imply numeric tuple order
once column numbers have different digit counts. -/
theorem C5_sorted_outputs :
    (∀ (bt : Bbox → TileRange) (tb : Int → Int → Bbox) (ss : Int × Int) (data : String)
        (l : List (Int × Int)),
      bboxes_list_to_slabs bt tb ss data = .ok l → l.Pairwise slabLe) ∧
    (∀ (bt : Bbox → TileRange) (tb : Int → Int → Bbox) (ss : Int × Int) (bl : List Bbox)
        (inter : Bbox → Bool) (l : List String),
      geom_to_slab_strings bt tb ss bl inter = .ok l → l.Pairwise pyStrLe) ∧
    (∀ (tmId : String) (bt : Bbox → TileRange) (tb : Int → Int → Bbox) (bl : List Bbox)
        (inter : Bbox → Bool),
      (geom_to_gettile_list tmId bt tb bl inter).Pairwise pyStrLe) := by
  refine ⟨?_, ?_, ?_⟩
  · intro bt tb ss data l h
    obtain ⟨m, _, hl⟩ := bboxes_list_to_slabs_ok bt tb ss data l h
    rw [hl]
    exact List.sorted_insertionSort slabLe m
  · intro bt tb ss bl inter l h
    obtain ⟨m, _, hl⟩ := geom_to_slab_strings_ok bt tb ss bl inter l h
    rw [hl]
    exact List.sorted_insertionSort pyStrLe m
  · intro tmId bt tb bl inter
    rw [geom_to_gettile_list]
    exact List.sorted_insertionSort pyStrLe _

/-- C5 witness: the sortedness facts applied at concrete inputs of both
modes. -/
theorem C5_sorted_outputs_witness :
    bboxes_list_to_slabs (fun _ => ⟨160, 240, 160, 250⟩) (fun _ _ => ⟨0, 0, 0, 0⟩) (16, 10)
      "0,0,1,1\n0,0,1,1" = .ok [(10, 24), (10, 25)] ∧
    ([((10 : Int), (24 : Int)), (10, 25)]).Pairwise slabLe ∧
    (["10,2", "10,3", "10,4", "10,5", "9,2", "9,3", "9,4", "9,5"]).Pairwise pyStrLe :=
  ⟨rfl,
   C5_sorted_outputs.1 (fun _ => ⟨160, 240, 160, 250⟩) (fun _ _ => ⟨0, 0, 0, 0⟩) (16, 10)
     "0,0,1,1\n0,0,1,1" [(10, 24), (10, 25)] rfl,
   C5_sorted_outputs.2.1 (fun _ => ⟨9, 2, 10, 5⟩)
     (fun c r => ⟨(c : ℚ), (r : ℚ), (c : ℚ), (r : ℚ)⟩) (1, 1) [⟨0, 0, 0, 0⟩] (fun _ => true)
     ["10,2", "10,3", "10,4", "10,5", "9,2", "9,3", "9,4", "9,5"] rfl⟩

/-- C6: for every bbox-list input and every multi-part geometry input, each
slab coordinate (or tile query string) appears at most once in the merged
final output, even when the per-sub-region sets overlap: the three
aggregation paths all produce duplicate-free lists. -/
theorem C6_no_duplicates :
    (∀ (bt : Bbox → TileRange) (tb : Int → Int → Bbox) (ss : Int × Int) (data : String)
        (l : List (Int × Int)),
      bboxes_list_to_slabs bt tb ss data = .ok l → l.Nodup) ∧
    (∀ (bt : Bbox → TileRange) (tb : Int → Int → Bbox) (ss : Int × Int) (bl : List Bbox)
        (inter : Bbox → Bool) (l : List String),
      geom_to_slab_strings bt tb ss bl inter = .ok l → l.Nodup) ∧
    (∀ (tmId : String) (bt : Bbox → TileRange) (tb : Int → Int → Bbox) (bl : List Bbox)
        (inter : Bbox → Bool),
      (geom_to_gettile_list tmId bt tb bl inter).Nodup) := by
  refine ⟨?_, ?_, ?_⟩
  · intro bt tb ss data l h
    obtain ⟨m, hm, hl⟩ := bboxes_list_to_slabs_ok bt tb ss data l h
    rw [hl]
    exact (List.perm_insertionSort slabLe m).symm.nodup
      (accumulate_slabs_nodup bt tb ss (splitlines data) [] m List.nodup_nil hm)
  · intro bt tb ss bl inter l h
    obtain ⟨m, hm, hl⟩ := geom_to_slab_strings_ok bt tb ss bl inter l h
    rw [hl]
    exact (List.perm_insertionSort pyStrLe m).symm.nodup
      (accumulate_slab_strings_nodup bt tb ss inter bl [] m List.nodup_nil hm)
  · intro tmId bt tb bl inter
    rw [geom_to_gettile_list]
    exact (List.perm_insertionSort pyStrLe _).symm.nodup
      (gettile_fold_nodup tmId bt tb inter bl [] List.nodup_nil)

/-- C6 witness: two fully overlapping bbox lines produce each shared slab
exactly once. -/
theorem C6_no_duplicates_witness :
    bboxes_list_to_slabs (fun _ => ⟨160, 240, 160, 250⟩) (fun _ _ => ⟨0, 0, 0, 0⟩) (16, 10)
      "0,0,1,1\n0,0,1,1" = .ok [(10, 24), (10, 25)] ∧
    ([((10 : Int), (24 : Int)), (10, 25)]).Nodup :=
  ⟨rfl,
   C6_no_duplicates.1 (fun _ => ⟨160, 240, 160, 250⟩) (fun _ _ => ⟨0, 0, 0, 0⟩) (16, 10)
     "0,0,1,1\n0,0,1,1" [(10, 24), (10, 25)] rfl⟩

/-- C7 counterexample: the claim states the unsupported-conversion error is
raised before any access to the Tile Matrix Catalog.  For the unsupported
pair `BBOXES_LIST` to `GETMAP_PARAMS` with a level given, the trace of the
prefix of `main` is catalog constructor, then level lookup, then the
unsupported-conversion error: the catalog is touched before the error. -/
theorem C7_upfront_counterexample :
    main_prefix_trace ⟨"PM", "BBOXES_LIST:foo", "GETMAP_PARAMS", some "15", none⟩ =
      [.catalogResolve, .levelLookup, .unsupportedError] ∧
    Event.unsupportedError ∈
      main_prefix_trace ⟨"PM", "BBOXES_LIST:foo", "GETMAP_PARAMS", some "15", none⟩ ∧
    Event.catalogResolve ∈
      (main_prefix_trace ⟨"PM", "BBOXES_LIST:foo", "GETMAP_PARAMS", some "15", none⟩).takeWhile
        (fun e => decide (e ≠ Event.unsupportedError)) := by
  decide

/-- C7 (amended): for any arguments with a well-formed (or absent) slab
size, parsable formats, a given level and an unsupported input/output pair,
the prefix of `main` resolves the tiling scheme and looks the level up
first, and only then raises the unsupported-conversion error, before any
conversion work. -/
theorem C7_unsupported_after_catalog :
    ∀ (args : Args) (ip op : String × Option String) (lv : String),
      args.slabsize = none →
      parse_format args.input = some ip →
      parse_format args.output = some op →
      conversion_supported ip.1 op.1 = false →
      args.level = some lv →
      main_prefix_trace args = [.catalogResolve, .levelLookup, .unsupportedError] := by
  intro args ip op lv hsl hin hout hcs hlv
  simp [main_prefix_trace, hsl, hin, hout, hcs, hlv]

/-- C7 witness: the amended ordering at the concrete unsupported request. -/
theorem C7_unsupported_after_catalog_witness :
    (Args.mk "PM" "BBOXES_LIST:foo" "GETMAP_PARAMS" (some "15") none).slabsize = none ∧
    parse_format "BBOXES_LIST:foo" = some ("BBOXES_LIST", some "foo") ∧
    parse_format "GETMAP_PARAMS" = some ("GETMAP_PARAMS", none) ∧
    conversion_supported "BBOXES_LIST" "GETMAP_PARAMS" = false ∧
    main_prefix_trace ⟨"PM", "BBOXES_LIST:foo", "GETMAP_PARAMS", some "15", none⟩ =
      [.catalogResolve, .levelLookup, .unsupportedError] :=
  ⟨rfl, by decide, by decide, by decide,
   C7_unsupported_after_catalog ⟨"PM", "BBOXES_LIST:foo", "GETMAP_PARAMS", some "15", none⟩
     ("BBOXES_LIST", some "foo") ("GETMAP_PARAMS", none) "15" rfl (by decide) (by decide)
     (by decide) rfl⟩

/-- C8: the Reverse Mapper emits exactly one parameter string of the form
`WIDTH=<w>&HEIGHT=<h>&BBOX=<minX>,<minY>,<maxX>,<maxY>&CRS=<crs>`; in
particular for tile pixel size `(256, 127)`, a transform returning bbox
`(753363.35, 10936117.94, 754586.34, 10936724.66)` and CRS `EPSG:3857` the
line is exactly the claimed one. -/
theorem C8_getmap_query_format :
    (∀ (w h : Int) (b1 b2 b3 b4 srs : String),
      getmap_query (w, h) (b1, b2, b3, b4) srs =
        "WIDTH=" ++ toString w ++ "&HEIGHT=" ++ toString h ++ "&BBOX=" ++ b1 ++ "," ++ b2 ++
          "," ++ b3 ++ "," ++ b4 ++ "&CRS=" ++ srs) ∧
    getmap_query (256, 127) ("753363.35", "10936117.94", "754586.34", "10936724.66")
      "EPSG:3857" =
      "WIDTH=256&HEIGHT=127&BBOX=753363.35,10936117.94,754586.34,10936724.66&CRS=EPSG:3857" :=
  ⟨fun _ _ _ _ _ _ _ => rfl, by rfl⟩

/-- C9: `read_bbox` raises a value error exactly when the input fails to
match the anchored pattern of four comma-separated numbers (optional
leading minus, optional decimal fraction), and performs no ordering
validation: every well-formed string, including inverted ones, yields the
four parsed values unchanged. -/
theorem C9_read_bbox_pattern_only :
    ∀ s : String,
      ((∃ e, read_bbox s none = .error e) ↔ ¬ BboxString s) ∧
      (∀ a b c d : List Char,
        s.data = a ++ (',' :: (b ++ (',' :: (c ++ (',' :: d))))) →
        NumToken a → NumToken b → NumToken c → NumToken d →
        read_bbox s none = .ok ⟨parseNum a, parseNum b, parseNum c, parseNum d⟩) := by
  intro s
  constructor
  · constructor
    · rintro ⟨e, he⟩ hbs
      obtain ⟨a, b, c, d, hdec, h1, h2, h3, h4⟩ := hbs
      have hok := matchBbox_complete s a b c d hdec h1 h2 h3 h4
      rw [read_bbox, hok] at he
      simp at he
    · intro hnb
      cases hmb : matchBbox s with
      | some q =>
        rcases q with ⟨a, b, c, d⟩
        exact absurd (matchBbox_sound s a b c d hmb) hnb
      | none =>
        refine ⟨.valueError ( "Invalid BBOX: " ++ s ++
          "\nExpected BBOX format is <min_axis_1>,<min_axis_2>,<max_axis_1>,<max_axis_2>"), ?_⟩
        rw [read_bbox, hmb]
        rfl
  · intro a b c d hdec h1 h2 h3 h4
    have hok := matchBbox_complete s a b c d hdec h1 h2 h3 h4
    rw [read_bbox, hok]

/-- C9 witness: the inverted bbox string `"5,5,1,1"` is well-formed,
parses to `(5, 5, 1, 1)` with `min_x > max_x`, and is not rejected. -/
theorem C9_read_bbox_pattern_only_witness :
    "5,5,1,1".data = ['5'] ++ (',' :: (['5'] ++ (',' :: (['1'] ++ (',' :: ['1']))))) ∧
    NumToken ['5'] ∧ NumToken ['1'] ∧
    read_bbox "5,5,1,1" none = .ok ⟨5, 5, 1, 1⟩ ∧
    ¬ ((5 : ℚ) ≤ 1) := by
  have nt5 : NumToken ['5'] := ⟨[], ['5'], [], rfl, Or.inl rfl, ⟨by decide, by decide⟩, Or.inl rfl⟩
  have nt1 : NumToken ['1'] := ⟨[], ['1'], [], rfl, Or.inl rfl, ⟨by decide, by decide⟩, Or.inl rfl⟩
  refine ⟨by decide, nt5, nt1, ?_, by decide⟩
  have h := (C9_read_bbox_pattern_only "5,5,1,1").2 ['5'] ['5'] ['1'] ['1'] (by decide)
    nt5 nt5 nt1 nt1
  have e5 : parseNum ['5'] = 5 := by decide
  have e1 : parseNum ['1'] = 1 := by decide
  rw [h, e5, e1]

/-- C10: the slab-size validation accepts every `<digits>x<digits>` string,
including zero dimensions such as `0x0` and `16x0`; with a zero slab
dimension `bbox_to_slab_list` raises the division-by-zero error, which the
script entry point maps to the generic exit code 1, unlike the value-error
class which maps to exit code 2. -/
theorem C10_zero_slabsize_division :
    (∀ d1 d2 : List Char, d1 ≠ [] → (∀ c ∈ d1, c.isDigit = true) → d2 ≠ [] →
      (∀ c ∈ d2, c.isDigit = true) →
      parse_slabsize (String.mk (d1 ++ 'x' :: d2)) =
        some ((digitsToNat d1 : Int), (digitsToNat d2 : Int))) ∧
    parse_slabsize "0x0" = some (0, 0) ∧
    parse_slabsize "16x0" = some (16, 0) ∧
    (∀ (bt : Bbox → TileRange) (tb : Int → Int → Bbox) (bbox : Bbox)
        (container : Option (Bbox → Bool)) (w h : Int), w = 0 ∨ h = 0 →
      bbox_to_slab_list bt tb bbox (w, h) container = .error .zeroDivisionError) ∧
    script_exit_code (.error .zeroDivisionError) = 1 ∧
    (∀ msg, script_exit_code (.error (.valueError msg)) = 2) := by
  refine ⟨?_, by decide, by decide, ?_, rfl, fun msg => rfl⟩
  · intro d1 d2 h1ne h1d h2ne h2d
    have hx : ∀ c cs2, ('x' :: d2) = c :: cs2 → Char.isDigit c = false := by
      intro c cs2 hc
      injection hc with hc1 _
      rw [← hc1]
      decide
    have key := takeP_of_all Char.isDigit d1 ('x' :: d2) h1d hx
    have key2 := takeP_of_all Char.isDigit d2 [] h2d (by intro c cs2 hc; simp at hc)
    rw [List.append_nil] at key2
    have hd1e : d1.isEmpty = false := by
      cases d1 with
      | nil => exact absurd rfl h1ne
      | cons a l => rfl
    have hd2e : d2.isEmpty = false := by
      cases d2 with
      | nil => exact absurd rfl h2ne
      | cons a l => rfl
    simp [parse_slabsize, key, key2, hd1e, hd2e]
  · intro bt tb bbox container w h hwh
    rw [bbox_to_slab_list, if_pos hwh]

/-- C10 witness: `"0x0"` passes the slab-size validation as `(0, 0)`, a
zero dimension raises the division error, and that error is in the generic
exit-code class. -/
theorem C10_zero_slabsize_division_witness :
    (['0'] : List Char) ≠ [] ∧
    parse_slabsize (String.mk (['0'] ++ 'x' :: ['0'])) =
      some ((digitsToNat ['0'] : Int), (digitsToNat ['0'] : Int)) ∧
    ((0 : Int) = 0 ∨ (10 : Int) = 0) ∧
    bbox_to_slab_list (fun _ => ⟨0, 0, 0, 0⟩) (fun _ _ => ⟨0, 0, 0, 0⟩) ⟨0, 0, 0, 0⟩ (0, 10)
      none = .error .zeroDivisionError ∧
    script_exit_code (.error .zeroDivisionError) = 1 :=
  ⟨by decide,
   C10_zero_slabsize_division.1 ['0'] ['0'] (by decide) (by decide) (by decide) (by decide),
   Or.inl rfl,
   C10_zero_slabsize_division.2.2.2.1 (fun _ => ⟨0, 0, 0, 0⟩) (fun _ _ => ⟨0, 0, 0, 0⟩)
     ⟨0, 0, 0, 0⟩ none 0 10 (Or.inl rfl),
   C10_zero_slabsize_division.2.2.2.2.1⟩
